import Mathlib

/-!
Verification of the job-orchestration server in src/counter-wip/src/server.ts
(and its earlier variant src/unnamed/part_000).

The development shallowly embeds the pieces of the server that the spec talks
about:

* JavaScript values reaching the request handlers are modelled by `JsValue`;
  property access models the JS semantics that reading a property of `null`
  or `undefined` throws a TypeError while reading a missing property of any
  other value yields `undefined`.
* The in-memory `jobs` Map is modelled as an association list with JS `Map`
  update semantics (`mapSet`, `mapGet`).
* The synchronous part of the POST /start_job handler (validation, job
  creation, the HTTP response) is `startJobSync`; the asynchronous
  continuation that polls the payment service and runs the increment is
  `lifecycleTail`/`jobWrites`, driven by an environment trace of poll steps
  (elapsed milliseconds at each loop-condition check plus the query outcome)
  and an execution outcome for api.increment.
* The GET /status handler is `statusHandler`.  A job record field that is
  `undefined` in JS is dropped by res.json (JSON.stringify); this is modelled
  by `Job.result : Option (Option String)` where `none` means the key is
  absent from the serialized body, `some none` means it is present with value
  null, and `some (some s)` means it is present with string value s.
* The SIGINT handler is modelled by `runSeg`/`runSchedule` over handler
  segments split at its single await point.
* `numberToAscii` and `ASCII_NUMBERS` are embedded over the decimal string of
  the input number.
-/

/-- A JavaScript value as seen by the request handlers (parsed JSON plus
`undefined`). -/
inductive JsValue where
  | null
  | undefined
  | str (s : String)
  | num (n : Int)
  | bool (b : Bool)
  | arr (elems : List JsValue)
  | obj (fields : List (String × JsValue))

/-- JS property read `v[k]`: throws a TypeError on null/undefined, yields the
field of an object (or `undefined` when the field is missing), and yields
`undefined` on other primitives (none of the accessed names collide with
built-in properties). -/
def getProp : JsValue → String → Except String JsValue
  | .null, _ => .error "TypeError: cannot read properties of null"
  | .undefined, _ => .error "TypeError: cannot read properties of undefined"
  | .obj fields, k => .ok ((List.lookup k fields).getD .undefined)
  | _, _ => .ok .undefined

/-- JS strict equality `v === s` against a string literal. -/
def isStrVal (v : JsValue) (s : String) : Bool :=
  match v with
  | .str t => t == s
  | _ => false

/-- A job record as stored in the `jobs` Map.  `result` models the JS value of
the `result` property: `none` is `undefined` (property absent after JSON
serialization), `some none` is `null`, `some (some s)` is the string `s`. -/
structure Job where
  status : String
  result : Option (Option String)
deriving DecidableEq

/-- JS `Map.prototype.set`: replace the value at an existing key, otherwise
append the binding. -/
def mapSet (m : List (String × Job)) (k : String) (v : Job) : List (String × Job) :=
  if (List.lookup k m).isSome then
    m.map (fun p => if p.1 = k then (k, v) else p)
  else
    m ++ [(k, v)]

/-- JS `Map.prototype.get`. -/
def mapGet (m : List (String × Job)) (k : String) : Option Job :=
  List.lookup k m

/-- server.ts line 227: the blockchainIdentifier constant. -/
def blockchainIdentifier : String := "Cardano"

/-- server.ts line 248: the record written at job creation,
`{ status: "awaiting_payment", result: null }`. -/
def initialJob : Job := { status := "awaiting_payment", result := some none }

/-- The JSON body answered by a successful POST /start_job (server.ts lines
250-258); the three time fields are rendered with Number.prototype.toString. -/
structure StartJobResponse where
  job_id : String
  payment_id : String
  inputHash : String
  blockchainIdentifier : String
  unlockTime : String
  externalDisputeUnlockTime : String
  submitResultTime : String
deriving DecidableEq

/-- Outcome of the synchronous part of the POST /start_job handler, together
with the jobs map it leaves behind.  `thrown` is an exception escaping the
handler before any response is sent (the validation code is outside the
try block). -/
inductive StartJobSyncResult where
  | thrown (msg : String) (registry : List (String × Job))
  | badRequest (error : String) (registry : List (String × Job))
  | accepted (resp : StartJobResponse) (registry : List (String × Job))
deriving DecidableEq

/-- server.ts line 235, the callback-driven search
`inputData.find((entry) => entry.key === "task")`, propagating a TypeError
thrown by the property read. -/
def findTaskEntry : List JsValue → Except String (Option JsValue)
  | [] => .ok none
  | e :: es =>
    match getProp e "key" with
    | .error m => .error m
    | .ok k => if isStrVal k "task" then .ok (some e) else findTaskEntry es

/-- server.ts line 235: `inputData.find((entry) => entry.key === "task")?.value`. -/
def findTaskValue (entries : List JsValue) : Except String JsValue :=
  match findTaskEntry entries with
  | .error m => .error m
  | .ok none => .ok .undefined
  | .ok (some e) => getProp e "value"

/-- The synchronous part of the POST /start_job handler (server.ts lines
229-258): validation, creation of the awaiting_payment job record, and the
HTTP response.  `now` is Math.floor(Date.now() / 1000); `jobId`, `paymentId`
and `inputHash` stand for the uuidv4 values. -/
def startJobSync (body : JsValue) (registry : List (String × Job)) (now : Nat)
    (jobId paymentId inputHash : String) : StartJobSyncResult :=
  match getProp body "input_data" with
  | .error m => .thrown m registry
  | .ok inputData =>
    match inputData with
    | .arr entries =>
      match findTaskValue entries with
      | .error m => .thrown m registry
      | .ok task =>
        if isStrVal task "increment" then
          .accepted
            { job_id := jobId
              payment_id := paymentId
              inputHash := inputHash
              blockchainIdentifier := blockchainIdentifier
              unlockTime := Nat.repr (now + 600)
              externalDisputeUnlockTime := Nat.repr (now + 1800)
              submitResultTime := Nat.repr (now + 1200) }
            (mapSet registry jobId initialJob)
        else .badRequest "Unsupported task" registry
    | _ => .badRequest "input_data must be an array" registry

/-- The serialized JSON body of a 200 GET /status response; `result` uses the
same undefined/null/string encoding as `Job.result`. -/
structure StatusBody where
  job_id : String
  status : String
  result : Option (Option String)
deriving DecidableEq

/-- After JSON serialization the `result` key is present in the body exactly
when the stored JS value is not `undefined`. -/
def StatusBody.hasResultField (b : StatusBody) : Bool := b.result.isSome

/-- Outcome of the GET /status handler. -/
inductive StatusResult where
  | notFound (error : String)
  | ok (body : StatusBody)
deriving DecidableEq

/-- The GET /status handler (server.ts lines 299-311).  `jobId` is
`req.query.job_id`; `none` models an absent query parameter and the empty
string is falsy in the `!jobId` check. -/
def statusHandler (jobs : List (String × Job)) (jobId : Option String) : StatusResult :=
  match jobId with
  | none => .notFound "Job not found"
  | some id =>
    if id = "" then .notFound "Job not found"
    else
      match mapGet jobs id with
      | none => .notFound "Job not found"
      | some job => .ok { job_id := id, status := job.status, result := job.result }

/-- One query to the payment service: either a response whose
`data?.data?.status` field is `st` (`none` when the chain is missing), or a
thrown error whose message is `m` (`none` for a non-Error throw). -/
inductive QueryOutcome where
  | resp (st : Option String)
  | err (m : Option String)
deriving DecidableEq

/-- One potential iteration of the payment poll loop: the value of
`Date.now() - start` at the loop-condition check, and the outcome of the query
performed if the body runs. -/
structure PollStep where
  elapsed : Nat
  outcome : QueryOutcome
deriving DecidableEq

/-- How the poll loop in server.ts lines 261-278 ends. -/
inductive PollResult where
  | confirmed
  | timedOut
  | errored (m : Option String)
deriving DecidableEq

/-- server.ts line 263: the 120000 ms deadline of the payment poll loop. -/
def pollTimeoutMs : Nat := 120000

/-- The payment poll loop (server.ts lines 261-278) evaluated against an
environment trace; `none` when the trace is too short to decide the loop. -/
def pollLoop (timeout : Nat) : List PollStep → Option PollResult
  | [] => none
  | step :: rest =>
    if step.elapsed < timeout then
      match step.outcome with
      | .err m => some (.errored m)
      | .resp st => if st = some "Success" then some .confirmed else pollLoop timeout rest
    else some .timedOut

/-- Outcome of `await api.increment(counterContract)`: a result with a txId,
or a throw (message `none` for a non-Error throw). -/
inductive ExecOutcome where
  | success (txId : String)
  | thrown (m : Option String)
deriving DecidableEq

/-- server.ts line 295: `err instanceof Error ? err.message : "Unknown error"`. -/
def errMessage (m : Option String) : String := m.getD "Unknown error"

/-- The registry writes performed by the asynchronous continuation of the
/start_job handler after the response is sent (server.ts lines 260-296):
timeout, query error, or confirmation followed by the increment. -/
def lifecycleTail (trace : List PollStep) (exec : ExecOutcome) : Option (List Job) :=
  match pollLoop pollTimeoutMs trace with
  | none => none
  | some .timedOut => some [{ status := "failed", result := some (some "Payment timeout") }]
  | some (.errored m) => some [{ status := "failed", result := some (some (errMessage m)) }]
  | some .confirmed =>
    match exec with
    | .success tx =>
      some [{ status := "running", result := none },
            { status := "completed", result := some (some tx) }]
    | .thrown m =>
      some [{ status := "running", result := none },
            { status := "failed", result := some (some (errMessage m)) }]

/-- The full sequence of registry writes a single job ever receives: the
awaiting_payment record written before the response, then the lifecycle
writes. -/
def jobWrites (trace : List PollStep) (exec : ExecOutcome) : Option (List Job) :=
  (lifecycleTail trace exec).map (fun tail => initialJob :: tail)

/-- The jobs map visible to GET /status after the first `k` writes of a job
have committed. -/
def registryAfter (jobId : String) (ws : List Job) (k : Nat) : List (String × Job) :=
  (ws.take k).foldl (fun m j => mapSet m jobId j) []

/-- Terminal statuses of the job state machine. -/
def isTerminal (st : String) : Bool := st = "completed" || st = "failed"

/-- The transitions of the job state machine in spec section 4.2, over the
status strings the code writes. -/
def allowedStep (a b : String) : Bool :=
  (a = "awaiting_payment" && (b = "running" || b = "failed")) ||
  (a = "running" && (b = "completed" || b = "failed"))

/-- State of the process relevant to graceful shutdown: whether the ledger
interval timer is still scheduled, how many times wallet.close() has been
called, and the exit code once process.exit has run. -/
structure ProcState where
  intervalActive : Bool
  walletCloseCalls : Nat
  exitCode : Option Nat
deriving DecidableEq

/-- The SIGINT handler (server.ts lines 341-346) split at its single await
point: `part1` is clearInterval(interval) plus the call to wallet.close();
`part2` is process.exit(0), which runs when the close promise resolves. -/
inductive SigSeg where
  | part1
  | part2
deriving DecidableEq

/-- Run one handler segment; once the process has exited nothing runs. -/
def runSeg (s : ProcState) (seg : SigSeg) : ProcState :=
  if s.exitCode.isSome then s
  else
    match seg with
    | .part1 => { s with intervalActive := false, walletCloseCalls := s.walletCloseCalls + 1 }
    | .part2 => { s with exitCode := some 0 }

/-- Run a schedule of handler segments, one event-loop turn at a time. -/
def runSchedule (s : ProcState) (segs : List SigSeg) : ProcState :=
  segs.foldl runSeg s

/-- Process state after startup: timer scheduled, wallet open, not exited. -/
def startupState : ProcState :=
  { intervalActive := true, walletCloseCalls := 0, exitCode := none }

/-- The segment sequence of one SIGINT handler invocation. -/
def sigintHandlerSegs : List SigSeg := [.part1, .part2]

/-- `Interleaving l r s`: `s` interleaves the two sequences `l` and `r`
preserving the order inside each; this is how the event loop may schedule the
segments of two concurrent handler invocations. -/
inductive Interleaving : List SigSeg → List SigSeg → List SigSeg → Prop where
  | nil : Interleaving [] [] []
  | left {x : SigSeg} {xs ys zs : List SigSeg} :
      Interleaving xs ys zs → Interleaving (x :: xs) ys (x :: zs)
  | right {y : SigSeg} {xs ys zs : List SigSeg} :
      Interleaving xs ys zs → Interleaving xs (y :: ys) (y :: zs)

/-- server.ts lines 42-123: the ASCII_NUMBERS table, six 8-character rows per
decimal digit. -/
def ASCII_NUMBERS (c : Char) : Option (List String) :=
  if c = '0' then some ["  ████  ", " ██  ██ ", "██    ██", "██    ██", " ██  ██ ", "  ████  "]
  else if c = '1' then some ["   ██   ", "  ███   ", "   ██   ", "   ██   ", "   ██   ", "  ████  "]
  else if c = '2' then some [" ██████ ", "██    ██", "     ██ ", "   ██   ", " ██     ", "████████"]
  else if c = '3' then some [" ██████ ", "██    ██", "    ███ ", "    ███ ", "██    ██", " ██████ "]
  else if c = '4' then some ["██    ██", "██    ██", "████████", "     ██ ", "     ██ ", "     ██ "]
  else if c = '5' then some ["████████", "██      ", "███████ ", "      ██", "██    ██", " ██████ "]
  else if c = '6' then some [" ██████ ", "██      ", "███████ ", "██    ██", "██    ██", " ██████ "]
  else if c = '7' then some ["████████", "     ██ ", "    ██  ", "   ██   ", "  ██    ", " ██     "]
  else if c = '8' then some [" ██████ ", "██    ██", " ██████ ", "██    ██", "██    ██", " ██████ "]
  else if c = '9' then some [" ██████ ", "██    ██", "██    ██", " ███████", "      ██", " ██████ "]
  else none

/-- JS `Array.prototype.join(sep)`. -/
def joinSep (sep : String) : List String → String
  | [] => ""
  | [x] => x
  | x :: xs => x ++ sep ++ joinSep sep xs

/-- The digits.forEach loop of numberToAscii (server.ts lines 135-142): fold
the characters into the six accumulated lines; `total` is digits.length and
`idx` the forEach index. -/
def asciiBuild (total : Nat) : Nat → List Char → List String → List String
  | _, [], lines => lines
  | idx, c :: cs, lines =>
    match ASCII_NUMBERS c with
    | none => asciiBuild total (idx + 1) cs lines
    | some rows =>
      asciiBuild total (idx + 1) cs
        ((lines.zip rows).map
          (fun p => p.1 ++ p.2 ++ (if idx < total - 1 then "  " else "")))

/-- server.ts lines 125-145: numberToAscii applied to num.toString(); the
argument is that decimal string (num.toString().split("") is its character
list). -/
def numberToAscii (s : String) : String :=
  joinSep "\n" (asciiBuild s.data.length 0 s.data ["", "", "", "", "", ""])

/-- A character with an ASCII_NUMBERS entry. -/
def recognizedDigit (c : Char) : Bool := (ASCII_NUMBERS c).isSome

/-- Row `j` of the ASCII art of digit `c` (empty for unrecognized input). -/
def digitRow (c : Char) (j : Nat) : String := ((ASCII_NUMBERS c).getD []).getD j ""

/-- Modelled from the spec wording of C10: line `j` is the concatenation of
row `j` of each recognized digit with two spaces appended after every digit
except the last. -/
def specAsciiLine (cs : List Char) (j : Nat) : String :=
  joinSep "  " ((cs.filter recognizedDigit).map (fun c => digitRow c j))

/-- Modelled from the spec wording of C10: exactly six newline-separated
lines, built per `specAsciiLine`. -/
def specNumberToAscii (s : String) : String :=
  joinSep "\n" ((List.range 6).map (fun j => specAsciiLine s.data j))

/-- The condition under which the trailing-separator bookkeeping of the code
matches the per-recognized-digit reading: every recognized digit that is
followed by further characters is followed by another recognized digit.  It
holds for every decimal rendering a JS number produces (finite numbers end in
a digit; NaN and the infinities contain none). -/
def sepOk : List Char → Bool
  | [] => true
  | c :: cs =>
    (!(recognizedDigit c) || cs.isEmpty || !((cs.filter recognizedDigit).isEmpty)) && sepOk cs

/-- The separator appended after the digit at position `idx` of `total`. -/
def asciiSep (total idx : Nat) : String := if idx < total - 1 then "  " else ""

/-- The contribution of the remaining characters `cs` (starting at forEach
index `idx`) to line `j`. -/
def contribLine (total : Nat) : Nat → List Char → Nat → String
  | _, [], _ => ""
  | idx, c :: cs, j =>
    (match ASCII_NUMBERS c with
     | none => ""
     | some rows => rows.getD j "" ++ asciiSep total idx) ++ contribLine total (idx + 1) cs j

theorem lookup_cons_self (k : String) (v : Job) (m : List (String × Job)) :
    List.lookup k ((k, v) :: m) = some v := by
  simp [List.lookup]

theorem lookup_cons_ne (k a : String) (hk : k ≠ a) (v : Job) (m : List (String × Job)) :
    List.lookup k ((a, v) :: m) = List.lookup k m := by
  have hbeq : (k == a) = false := beq_eq_false_iff_ne.mpr hk
  simp [List.lookup, hbeq]

theorem lookup_replace (k : String) (v : Job) :
    ∀ m : List (String × Job), (List.lookup k m).isSome = true →
      List.lookup k (m.map (fun p => if p.1 = k then (k, v) else p)) = some v := by
  intro m
  induction m with
  | nil => intro h; simp [List.lookup] at h
  | cons a m ih =>
    obtain ⟨a1, b1⟩ := a
    intro h
    by_cases hk : a1 = k
    · subst hk
      rw [List.map_cons, if_pos rfl]
      exact lookup_cons_self a1 v _
    · have hne : k ≠ a1 := fun hh => hk hh.symm
      rw [lookup_cons_ne k a1 hne] at h
      rw [List.map_cons, if_neg hk, lookup_cons_ne k a1 hne]
      exact ih h

theorem lookup_append_new (k : String) (v : Job) :
    ∀ m : List (String × Job), List.lookup k m = none →
      List.lookup k (m ++ [(k, v)]) = some v := by
  intro m
  induction m with
  | nil => intro _; simp [List.lookup]
  | cons a m ih =>
    obtain ⟨a1, b1⟩ := a
    intro h
    by_cases hk : k = a1
    · subst hk; rw [lookup_cons_self] at h; cases h
    · rw [lookup_cons_ne k a1 hk] at h
      rw [List.cons_append, lookup_cons_ne k a1 hk]
      exact ih h

theorem mapGet_mapSet_self (m : List (String × Job)) (k : String) (v : Job) :
    mapGet (mapSet m k v) k = some v := by
  unfold mapGet mapSet
  by_cases h : (List.lookup k m).isSome = true
  · simp only [h, if_true]
    exact lookup_replace k v m h
  · have hn : List.lookup k m = none := by
      cases hl : List.lookup k m with
      | none => rfl
      | some w => rw [hl] at h; simp at h
    simp only [h, if_false]
    exact lookup_append_new k v m hn

theorem startJobSync_accepted_inv
    {body : JsValue} {registry : List (String × Job)} {now : Nat}
    {jobId paymentId inputHash : String} {resp : StartJobResponse}
    {reg2 : List (String × Job)}
    (h : startJobSync body registry now jobId paymentId inputHash =
      .accepted resp reg2) :
    resp = { job_id := jobId
             payment_id := paymentId
             inputHash := inputHash
             blockchainIdentifier := blockchainIdentifier
             unlockTime := Nat.repr (now + 600)
             externalDisputeUnlockTime := Nat.repr (now + 1800)
             submitResultTime := Nat.repr (now + 1200) } ∧
    reg2 = mapSet registry jobId initialJob := by
  unfold startJobSync at h
  repeat' split at h
  all_goals cases h
  all_goals exact ⟨rfl, rfl⟩

/-- A valid /start_job body: `{ input_data: [{ key: "task", value: "increment" }] }`. -/
def sampleBody : JsValue :=
  .obj [("input_data", .arr [.obj [("key", .str "task"), ("value", .str "increment")]])]

/-- C7: for every successful /start_job response the time fields are derived
from the creation time as unlockTime = createdAt + 600, submitResultTime =
createdAt + 1200, externalDisputeUnlockTime = createdAt + 1800, rendered as
decimal-string Unix seconds, and the three instants are strictly ordered
unlockTime < submitResultTime < externalDisputeUnlockTime. -/
theorem start_job_time_fields
    (body : JsValue) (registry : List (String × Job)) (now : Nat)
    (jobId paymentId inputHash : String) (resp : StartJobResponse)
    (reg2 : List (String × Job))
    (h : startJobSync body registry now jobId paymentId inputHash = .accepted resp reg2) :
    resp.unlockTime = Nat.repr (now + 600) ∧
    resp.submitResultTime = Nat.repr (now + 1200) ∧
    resp.externalDisputeUnlockTime = Nat.repr (now + 1800) ∧
    now + 600 < now + 1200 ∧ now + 1200 < now + 1800 := by
  obtain ⟨h1, -⟩ := startJobSync_accepted_inv h
  subst h1
  exact ⟨rfl, rfl, rfl, by omega, by omega⟩

/-- The response of the C7 witness run. -/
def resp7 : StartJobResponse :=
  { job_id := "job-1", payment_id := "pay-1", inputHash := "hash-1",
    blockchainIdentifier := "Cardano", unlockTime := "1600",
    externalDisputeUnlockTime := "2800", submitResultTime := "2200" }

theorem start_job_time_fields_witness :
    (startJobSync sampleBody [] 1000 "job-1" "pay-1" "hash-1" =
      .accepted resp7 [("job-1", initialJob)]) ∧
    (resp7.unlockTime = Nat.repr (1000 + 600) ∧
      resp7.submitResultTime = Nat.repr (1000 + 1200) ∧
      resp7.externalDisputeUnlockTime = Nat.repr (1000 + 1800) ∧
      1000 + 600 < 1000 + 1200 ∧ 1000 + 1200 < 1000 + 1800) :=
  ⟨by decide,
   start_job_time_fields sampleBody [] 1000 "job-1" "pay-1" "hash-1" resp7
     [("job-1", initialJob)] (by decide)⟩

/-- The inputHash closed over by the /start_job handler, generated once per
process at server.ts line 226. -/
structure ServerCtx where
  inputHash : String

/-- The /start_job handler as installed in the running server: it closes over
the process-wide ServerCtx. -/
def handleStartJob (ctx : ServerCtx) (body : JsValue) (registry : List (String × Job))
    (now : Nat) (jobId paymentId : String) : StartJobSyncResult :=
  startJobSync body registry now jobId paymentId ctx.inputHash

/-- C9: any two successful /start_job invocations in the same process run
answer the identical inputHash (the single uuid generated at startup) and the
identical blockchainIdentifier "Cardano". -/
theorem input_hash_process_constant
    (ctx : ServerCtx) (b1 b2 : JsValue) (r1 r2 : List (String × Job)) (n1 n2 : Nat)
    (j1 p1 j2 p2 : String) (resp1 resp2 : StartJobResponse)
    (g1 g2 : List (String × Job))
    (h1 : handleStartJob ctx b1 r1 n1 j1 p1 = .accepted resp1 g1)
    (h2 : handleStartJob ctx b2 r2 n2 j2 p2 = .accepted resp2 g2) :
    resp1.inputHash = resp2.inputHash ∧
    resp1.blockchainIdentifier = "Cardano" ∧
    resp2.blockchainIdentifier = "Cardano" := by
  unfold handleStartJob at h1 h2
  obtain ⟨e1, -⟩ := startJobSync_accepted_inv h1
  obtain ⟨e2, -⟩ := startJobSync_accepted_inv h2
  subst e1; subst e2
  exact ⟨rfl, rfl, rfl⟩

/-- Responses of the two C9 witness runs. -/
def resp9a : StartJobResponse :=
  { job_id := "job-a", payment_id := "pay-a", inputHash := "hash-9",
    blockchainIdentifier := "Cardano", unlockTime := "600",
    externalDisputeUnlockTime := "1800", submitResultTime := "1200" }

def resp9b : StartJobResponse :=
  { job_id := "job-b", payment_id := "pay-b", inputHash := "hash-9",
    blockchainIdentifier := "Cardano", unlockTime := "600",
    externalDisputeUnlockTime := "1800", submitResultTime := "1200" }

theorem input_hash_process_constant_witness :
    (handleStartJob ⟨"hash-9"⟩ sampleBody [] 0 "job-a" "pay-a" =
      .accepted resp9a [("job-a", initialJob)]) ∧
    (handleStartJob ⟨"hash-9"⟩ sampleBody [] 0 "job-b" "pay-b" =
      .accepted resp9b [("job-b", initialJob)]) ∧
    (resp9a.inputHash = resp9b.inputHash ∧
      resp9a.blockchainIdentifier = "Cardano" ∧
      resp9b.blockchainIdentifier = "Cardano") :=
  ⟨by decide, by decide,
   input_hash_process_constant ⟨"hash-9"⟩ sampleBody sampleBody [] [] 0 0
     "job-a" "pay-a" "job-b" "pay-b" resp9a resp9b [("job-a", initialJob)]
     [("job-b", initialJob)] (by decide) (by decide)⟩

/-- C2: every /start_job request the handler accepts is answered with the
job_id, payment_id and time fields by the synchronous part of the handler,
before the payment poll (modelled separately by jobWrites) has run at all,
and a GET /status for that job_id against the registry the response leaves
behind reports awaiting_payment (the code string for AwaitingPayment) with a
null result.  The hypothesis jobId nonempty reflects that uuidv4 values are
never the empty (falsy) string. -/
theorem start_job_responds_before_confirmation
    (body : JsValue) (registry : List (String × Job)) (now : Nat)
    (jobId paymentId inputHash : String) (resp : StartJobResponse)
    (reg2 : List (String × Job))
    (hid : jobId ≠ "")
    (h : startJobSync body registry now jobId paymentId inputHash = .accepted resp reg2) :
    resp.job_id = jobId ∧ resp.payment_id = paymentId ∧
    resp.unlockTime = Nat.repr (now + 600) ∧
    resp.externalDisputeUnlockTime = Nat.repr (now + 1800) ∧
    resp.submitResultTime = Nat.repr (now + 1200) ∧
    statusHandler reg2 (some jobId) =
      .ok { job_id := jobId, status := "awaiting_payment", result := some none } := by
  obtain ⟨h1, h2⟩ := startJobSync_accepted_inv h
  subst h1; subst h2
  refine ⟨rfl, rfl, rfl, rfl, rfl, ?_⟩
  simp only [statusHandler, if_neg hid, mapGet_mapSet_self]
  rfl

/-- The response of the C2 witness run. -/
def resp2w : StartJobResponse :=
  { job_id := "job-2", payment_id := "pay-2", inputHash := "hash-2",
    blockchainIdentifier := "Cardano", unlockTime := "650",
    externalDisputeUnlockTime := "1850", submitResultTime := "1250" }

theorem start_job_responds_before_confirmation_witness :
    ("job-2" ≠ "") ∧
    (startJobSync sampleBody [] 50 "job-2" "pay-2" "hash-2" =
      .accepted resp2w [("job-2", initialJob)]) ∧
    (resp2w.job_id = "job-2" ∧ resp2w.payment_id = "pay-2" ∧
      resp2w.unlockTime = Nat.repr (50 + 600) ∧
      resp2w.externalDisputeUnlockTime = Nat.repr (50 + 1800) ∧
      resp2w.submitResultTime = Nat.repr (50 + 1200) ∧
      statusHandler [("job-2", initialJob)] (some "job-2") =
        .ok { job_id := "job-2", status := "awaiting_payment", result := some none }) :=
  ⟨by decide, by decide,
   start_job_responds_before_confirmation sampleBody [] 50 "job-2" "pay-2" "hash-2" resp2w
     [("job-2", initialJob)] (by decide) (by decide)⟩

/-- Whether a poll step is a query response reporting payment success. -/
def reportsSuccess (s : PollStep) : Bool :=
  match s.outcome with
  | .resp st => st == some "Success"
  | .err _ => false

theorem pollLoop_error (timeout : Nat) :
    ∀ (pre : List PollStep) (e : Nat) (m : Option String),
      (∀ s ∈ pre, s.elapsed < timeout ∧ ∃ st, s.outcome = .resp st ∧ st ≠ some "Success") →
      e < timeout →
      pollLoop timeout (pre ++ [⟨e, .err m⟩]) = some (.errored m) := by
  intro pre
  induction pre with
  | nil =>
    intro e m _ he
    simp [pollLoop, he]
  | cons s pre ih =>
    intro e m hpre he
    obtain ⟨hs, st, hout, hne⟩ := hpre s (List.mem_cons_self s pre)
    rw [List.cons_append]
    simp only [pollLoop, if_pos hs, hout]
    rw [if_neg hne]
    exact ih e m (fun x hx => hpre x (List.mem_cons_of_mem s hx)) he

theorem pollLoop_timeout (timeout : Nat) :
    ∀ trace : List PollStep,
      (∀ s ∈ trace, ∃ st, s.outcome = .resp st ∧ st ≠ some "Success") →
      (∃ s ∈ trace, timeout ≤ s.elapsed) →
      pollLoop timeout trace = some .timedOut := by
  intro trace
  induction trace with
  | nil =>
    intro _ hex
    rcases hex with ⟨s, hs, -⟩
    cases hs
  | cons s rest ih =>
    intro hall hex
    by_cases hlt : s.elapsed < timeout
    · obtain ⟨st, hout, hne⟩ := hall s (List.mem_cons_self s rest)
      simp only [pollLoop, if_pos hlt, hout]
      rw [if_neg hne]
      apply ih (fun x hx => hall x (List.mem_cons_of_mem s hx))
      rcases hex with ⟨x, hx, hxe⟩
      rcases List.mem_cons.mp hx with h1 | h2
      · subst h1; omega
      · exact ⟨x, h2, hxe⟩
    · simp only [pollLoop, if_neg hlt]

/-- C1 counterexample: an environment whose only event is a single failed
payment query at elapsed time 0, well below the 120 s deadline.  The job does
not stay in awaiting_payment while polling continues: the whole lifecycle
ends immediately with a failed write carrying the query error message. -/
theorem poll_error_leaves_awaiting_cex :
    jobWrites [⟨0, .err (some "network down")⟩] (.success "tx") =
      some [initialJob, { status := "failed", result := some (some "network down") }] ∧
    (0 < pollTimeoutMs) ∧
    ({ status := "failed", result := some (some "network down") } : Job).status ≠
      "awaiting_payment" :=
  ⟨by decide, by decide, by decide⟩

/-- C1 (amended): a failed payment-service query before the 120 s deadline is
not treated as "not yet confirmed": the exception escapes the while loop to
the catch block, which moves the job straight from awaiting_payment to failed
with the error message, and polling stops. -/
theorem poll_error_fails_job
    (pre : List PollStep) (e : Nat) (m : Option String) (exec : ExecOutcome)
    (hpre : ∀ s ∈ pre, s.elapsed < pollTimeoutMs ∧
      ∃ st, s.outcome = .resp st ∧ st ≠ some "Success")
    (he : e < pollTimeoutMs) :
    jobWrites (pre ++ [⟨e, .err m⟩]) exec =
      some [initialJob, { status := "failed", result := some (some (errMessage m)) }] := by
  unfold jobWrites lifecycleTail
  rw [pollLoop_error pollTimeoutMs pre e m hpre he]
  rfl

theorem poll_error_fails_job_witness :
    (∀ s ∈ ([⟨0, .resp (some "Pending")⟩] : List PollStep), s.elapsed < pollTimeoutMs ∧
      ∃ st, s.outcome = .resp st ∧ st ≠ some "Success") ∧
    (10000 < pollTimeoutMs) ∧
    jobWrites ([⟨0, .resp (some "Pending")⟩] ++ [⟨10000, .err (some "socket hang up")⟩])
      (.success "tx") =
      some [initialJob,
        { status := "failed", result := some (some (errMessage (some "socket hang up"))) }] :=
  ⟨by
    intro s hs
    rw [List.mem_singleton] at hs
    subst hs
    exact ⟨by decide, some "Pending", rfl, by decide⟩,
   by decide,
   poll_error_fails_job [⟨0, .resp (some "Pending")⟩] 10000 (some "socket hang up")
     (.success "tx")
     (by
       intro s hs
       rw [List.mem_singleton] at hs
       subst hs
       exact ⟨by decide, some "Pending", rfl, by decide⟩)
     (by decide)⟩

/-- C3 counterexample: a trace in which the payment service never reports
success within the deadline because the single query before the deadline
fails.  The job does reach failed, but its result is the query error
message, not the timeout indicator "Payment timeout". -/
theorem payment_error_not_timeout_cex :
    jobWrites [⟨5000, .err (some "connection refused")⟩] (.success "tx") =
      some [initialJob, { status := "failed", result := some (some "connection refused") }] ∧
    (([⟨5000, .err (some "connection refused")⟩] : List PollStep).all
      (fun s => !(reportsSuccess s)) = true) ∧
    (some (some "connection refused") : Option (Option String)) ≠
      some (some "Payment timeout") :=
  ⟨by decide, by decide, by decide⟩

/-- C3 (amended): if every payment query before the deadline completes and
reports a non-success status, and the elapsed time reaches 120 s, the job
reaches terminal state failed with the timeout indicator "Payment timeout";
when a query fails instead, the job still fails but with the error message
(see the C1 theorems). -/
theorem payment_timeout_fails_job
    (trace : List PollStep) (exec : ExecOutcome)
    (hall : ∀ s ∈ trace, ∃ st, s.outcome = .resp st ∧ st ≠ some "Success")
    (hlate : ∃ s ∈ trace, pollTimeoutMs ≤ s.elapsed) :
    jobWrites trace exec =
      some [initialJob, { status := "failed", result := some (some "Payment timeout") }] := by
  unfold jobWrites lifecycleTail
  rw [pollLoop_timeout pollTimeoutMs trace hall hlate]
  rfl

theorem payment_timeout_fails_job_witness :
    (∀ s ∈ ([⟨0, .resp (some "Pending")⟩, ⟨120000, .resp (some "Pending")⟩] : List PollStep),
      ∃ st, s.outcome = .resp st ∧ st ≠ some "Success") ∧
    (∃ s ∈ ([⟨0, .resp (some "Pending")⟩, ⟨120000, .resp (some "Pending")⟩] : List PollStep),
      pollTimeoutMs ≤ s.elapsed) ∧
    jobWrites [⟨0, .resp (some "Pending")⟩, ⟨120000, .resp (some "Pending")⟩] (.thrown none) =
      some [initialJob, { status := "failed", result := some (some "Payment timeout") }] :=
  ⟨by
    intro s hs
    rcases List.mem_cons.mp hs with h1 | h2
    · subst h1; exact ⟨some "Pending", rfl, by decide⟩
    · rw [List.mem_singleton] at h2; subst h2
      exact ⟨some "Pending", rfl, by decide⟩,
   ⟨⟨120000, .resp (some "Pending")⟩, by
      exact List.mem_cons_of_mem _ (List.mem_singleton.mpr rfl), by decide⟩,
   payment_timeout_fails_job [⟨0, .resp (some "Pending")⟩, ⟨120000, .resp (some "Pending")⟩]
     (.thrown none)
     (by
       intro s hs
       rcases List.mem_cons.mp hs with h1 | h2
       · subst h1; exact ⟨some "Pending", rfl, by decide⟩
       · rw [List.mem_singleton] at h2; subst h2
         exact ⟨some "Pending", rfl, by decide⟩)
     ⟨⟨120000, .resp (some "Pending")⟩,
       List.mem_cons_of_mem _ (List.mem_singleton.mpr rfl), by decide⟩⟩

theorem jobWrites_cases
    (trace : List PollStep) (exec : ExecOutcome) (ws : List Job)
    (h : jobWrites trace exec = some ws) :
    ws = [initialJob, { status := "failed", result := some (some "Payment timeout") }] ∨
    (∃ m, ws = [initialJob, { status := "failed", result := some (some (errMessage m)) }]) ∨
    (∃ tx, ws = [initialJob, { status := "running", result := none },
      { status := "completed", result := some (some tx) }]) ∨
    (∃ m, ws = [initialJob, { status := "running", result := none },
      { status := "failed", result := some (some (errMessage m)) }]) := by
  unfold jobWrites lifecycleTail at h
  cases hp : pollLoop pollTimeoutMs trace with
  | none => rw [hp] at h; cases h
  | some pr =>
    rw [hp] at h
    cases pr with
    | timedOut => injection h with h; exact .inl h.symm
    | errored m => injection h with h; exact .inr (.inl ⟨m, h.symm⟩)
    | confirmed =>
      cases exec with
      | success tx => injection h with h; exact .inr (.inr (.inl ⟨tx, h.symm⟩))
      | thrown m => injection h with h; exact .inr (.inr (.inr ⟨m, h.symm⟩))

/-- C4: for every environment, the sequence of status values a job's registry
entry receives is monotonic along the state machine awaiting_payment to
running to completed or failed (awaiting_payment to failed directly on
timeout or query error), and a terminal write is never followed by any
further write: terminal statuses occur only as the very last write. -/
theorem job_status_monotonic
    (trace : List PollStep) (exec : ExecOutcome) (ws : List Job)
    (h : jobWrites trace exec = some ws) :
    ws.head?.map Job.status = some "awaiting_payment" ∧
    List.Chain' (fun a b => allowedStep a.status b.status = true) ws ∧
    ∀ j ∈ ws.dropLast, isTerminal j.status = false := by
  rcases jobWrites_cases trace exec ws h with h1 | ⟨m, h1⟩ | ⟨tx, h1⟩ | ⟨m, h1⟩ <;>
    subst h1 <;>
    refine ⟨rfl, ?_, ?_⟩ <;>
    simp [List.chain'_cons, List.chain'_singleton, allowedStep, initialJob, isTerminal,
      List.dropLast]

theorem job_status_monotonic_witness :
    (jobWrites [⟨0, .resp (some "Success")⟩] (.success "tx7") =
      some [initialJob, { status := "running", result := none },
        { status := "completed", result := some (some "tx7") }]) ∧
    (([initialJob, { status := "running", result := none },
        { status := "completed", result := some (some "tx7") }] : List Job).head?.map
          Job.status = some "awaiting_payment" ∧
      List.Chain' (fun a b => allowedStep a.status b.status = true)
        [initialJob, { status := "running", result := none },
          { status := "completed", result := some (some "tx7") }] ∧
      ∀ j ∈ ([initialJob, { status := "running", result := none },
          { status := "completed", result := some (some "tx7") }] : List Job).dropLast,
        isTerminal j.status = false) :=
  ⟨by decide,
   job_status_monotonic [⟨0, .resp (some "Success")⟩] (.success "tx7") _ (by decide)⟩

theorem jobWrites_member_shape
    (trace : List PollStep) (exec : ExecOutcome) (ws : List Job)
    (h : jobWrites trace exec = some ws) :
    ∀ j ∈ ws,
      (j.status = "awaiting_payment" → j.result = some none) ∧
      (j.status = "running" → j.result = none) ∧
      (isTerminal j.status = true → ∃ m, j.result = some (some m)) := by
  rcases jobWrites_cases trace exec ws h with h1 | ⟨m, h1⟩ | ⟨tx, h1⟩ | ⟨m, h1⟩ <;>
    subst h1 <;>
    intro j hj <;>
    fin_cases hj <;>
    refine ⟨fun hs => ?_, fun hs => ?_, fun hs => ?_⟩ <;>
    first
      | rfl
      | exact ⟨_, rfl⟩
      | simp [initialJob, isTerminal] at hs

theorem mapSet_single (jid : String) (v w : Job) :
    mapSet [(jid, v)] jid w = [(jid, w)] := by
  simp [mapSet, List.lookup]

theorem foldl_set_from_single (jid : String) :
    ∀ (l : List Job) (v : Job),
      List.foldl (fun m j => mapSet m jid j) [(jid, v)] l =
        [(jid, (v :: l).getLast (List.cons_ne_nil v l))] := by
  intro l
  induction l with
  | nil => intro v; rfl
  | cons w l ih =>
    intro v
    rw [List.foldl_cons, mapSet_single, ih w]
    simp [List.getLast_cons]

theorem foldl_set_getLast (jid : String) :
    ∀ (l : List Job) (j : Job), l.getLast? = some j →
      List.foldl (fun m jb => mapSet m jid jb) [] l = [(jid, j)] := by
  intro l j hl
  cases l with
  | nil => cases hl
  | cons v l =>
    rw [List.foldl_cons]
    have h0 : mapSet [] jid v = [(jid, v)] := by simp [mapSet, List.lookup]
    rw [h0, foldl_set_from_single jid l v]
    rw [List.getLast?_eq_getLast_of_ne_nil (List.cons_ne_nil v l)] at hl
    injection hl with hl
    rw [hl]

theorem registryAfter_getLast (jid : String) (ws : List Job) (k : Nat) (j : Job)
    (hk : (ws.take k).getLast? = some j) :
    registryAfter jid ws k = [(jid, j)] := by
  unfold registryAfter
  exact foldl_set_getLast jid (ws.take k) j hk

theorem mem_of_take_getLast (ws : List Job) (k : Nat) (j : Job)
    (hk : (ws.take k).getLast? = some j) : j ∈ ws := by
  have h1 : j ∈ ws.take k := by
    rcases List.mem_getLast?_eq_getLast (Option.mem_def.mpr hk) with ⟨hne, heq⟩
    rw [heq]
    exact List.getLast_mem hne
  exact (List.take_sublist k ws).subset h1

/-- C5 (amended): for every job_id issued by /start_job and every state its
registry entry passes through, GET /status returns 200 with the job_id and
status fields; the result field is serialized as null while the job awaits
payment, is absent from the body while the job is running (the code writes
the running record without a result property and res.json drops undefined),
and carries a string payload or failure message in the terminal states. -/
theorem status_endpoint_fields
    (trace : List PollStep) (exec : ExecOutcome) (ws : List Job)
    (jid : String) (k : Nat) (j : Job)
    (hjid : jid ≠ "")
    (hw : jobWrites trace exec = some ws)
    (hk : (ws.take k).getLast? = some j) :
    statusHandler (registryAfter jid ws k) (some jid) =
      .ok { job_id := jid, status := j.status, result := j.result } ∧
    (j.status = "awaiting_payment" → j.result = some none) ∧
    (j.status = "running" → j.result = none) ∧
    (isTerminal j.status = true → ∃ m, j.result = some (some m)) := by
  refine ⟨?_, jobWrites_member_shape trace exec ws hw j (mem_of_take_getLast ws k j hk)⟩
  rw [registryAfter_getLast jid ws k j hk]
  simp [statusHandler, mapGet, List.lookup, if_neg hjid]

theorem status_endpoint_fields_witness :
    ("job-5" ≠ "") ∧
    (jobWrites [⟨0, .resp (some "Success")⟩] (.success "tx5") =
      some [initialJob, { status := "running", result := none },
        { status := "completed", result := some (some "tx5") }]) ∧
    ((([initialJob, { status := "running", result := none },
        { status := "completed", result := some (some "tx5") }] : List Job).take 3).getLast? =
      some { status := "completed", result := some (some "tx5") }) ∧
    (statusHandler
        (registryAfter "job-5"
          [initialJob, { status := "running", result := none },
            { status := "completed", result := some (some "tx5") }] 3)
        (some "job-5") =
      .ok { job_id := "job-5", status := "completed", result := some (some "tx5") } ∧
      (("completed" : String) = "awaiting_payment" →
        (some (some "tx5") : Option (Option String)) = some none) ∧
      (("completed" : String) = "running" →
        (some (some "tx5") : Option (Option String)) = none) ∧
      (isTerminal "completed" = true →
        ∃ m, (some (some "tx5") : Option (Option String)) = some (some m))) := by
  refine ⟨by decide, by decide, by decide, ?_⟩
  exact status_endpoint_fields [⟨0, .resp (some "Success")⟩] (.success "tx5")
    [initialJob, { status := "running", result := none },
      { status := "completed", result := some (some "tx5") }]
    "job-5" 3 { status := "completed", result := some (some "tx5") }
    (by decide) (by decide) (by decide)

/-- C5 counterexample: after payment confirmation, while the job is running,
the registry holds the record written by jobs.set(jobId, status running)
whose result property is undefined, so the serialized 200 body of GET /status
contains only job_id and status: the result field is absent, not null. -/
theorem status_running_missing_result_cex :
    jobWrites [⟨0, .resp (some "Success")⟩] (.success "tx0") =
      some [initialJob, { status := "running", result := none },
        { status := "completed", result := some (some "tx0") }] ∧
    statusHandler
        (registryAfter "job-r"
          [initialJob, { status := "running", result := none },
            { status := "completed", result := some (some "tx0") }] 2)
        (some "job-r") =
      .ok { job_id := "job-r", status := "running", result := none } ∧
    StatusBody.hasResultField { job_id := "job-r", status := "running", result := none } =
      false :=
  ⟨by decide, by decide, by decide⟩

/-- JS null or undefined (property access on these throws). -/
def isNullish (v : JsValue) : Bool :=
  match v with
  | .null => true
  | .undefined => true
  | _ => false

/-- The request body shapes express.json can produce (strict mode parses only
objects and arrays). -/
def isObjOrArr (v : JsValue) : Bool :=
  match v with
  | .obj _ => true
  | .arr _ => true
  | _ => false

/-- Modelled from the spec wording of C6: an input_data entry with key "task"
and value "increment". -/
def isIncrementEntry (e : JsValue) : Bool :=
  match e with
  | .obj fields =>
    isStrVal ((List.lookup "key" fields).getD .undefined) "task" &&
    isStrVal ((List.lookup "value" fields).getD .undefined) "increment"
  | _ => false

/-- Modelled from the spec wording of C6: the body's input_data is missing,
not an array, or contains no entry with key "task" and value "increment". -/
def claimNoIncrement (body : JsValue) : Bool :=
  match body with
  | .obj fields =>
    match List.lookup "input_data" fields with
    | some (.arr entries) => entries.all (fun e => !(isIncrementEntry e))
    | some _ => true
    | none => true
  | _ => true

/-- No entry of input_data is null or undefined (so the find callback cannot
throw). -/
def safeEntries (body : JsValue) : Bool :=
  match body with
  | .obj fields =>
    match List.lookup "input_data" fields with
    | some (.arr entries) => entries.all (fun e => !(isNullish e))
    | _ => true
  | _ => true

theorem findTaskEntry_cons (e : JsValue) (es : List JsValue) :
    findTaskEntry (e :: es) =
      match getProp e "key" with
      | .error m => .error m
      | .ok k => if isStrVal k "task" then .ok (some e) else findTaskEntry es := rfl

theorem findTaskValue_cons_skip (e : JsValue) (es : List JsValue)
    (h : ∃ k, getProp e "key" = .ok k ∧ isStrVal k "task" = false) :
    findTaskValue (e :: es) = findTaskValue es := by
  obtain ⟨k, hk, hf⟩ := h
  unfold findTaskValue
  rw [findTaskEntry_cons, hk]
  dsimp only
  rw [if_neg (by simp [hf])]

theorem findTaskValue_cons_obj_found (fields : List (String × JsValue)) (es : List JsValue)
    (hk : isStrVal ((List.lookup "key" fields).getD .undefined) "task" = true) :
    findTaskValue (JsValue.obj fields :: es) =
      .ok ((List.lookup "value" fields).getD .undefined) := by
  unfold findTaskValue
  rw [findTaskEntry_cons]
  dsimp only [getProp]
  rw [if_pos hk]

theorem findTaskValue_no_increment :
    ∀ entries : List JsValue,
      entries.all (fun e => !(isNullish e)) = true →
      entries.all (fun e => !(isIncrementEntry e)) = true →
      ∃ v, findTaskValue entries = .ok v ∧ isStrVal v "increment" = false := by
  intro entries
  induction entries with
  | nil => intro _ _; exact ⟨.undefined, rfl, rfl⟩
  | cons e es ih =>
    intro hsafe hninc
    rw [List.all_cons, Bool.and_eq_true] at hsafe hninc
    obtain ⟨hse, hses⟩ := hsafe
    obtain ⟨hne, hnes⟩ := hninc
    cases e with
    | null => simp [isNullish] at hse
    | undefined => simp [isNullish] at hse
    | obj fields =>
      by_cases hk : isStrVal ((List.lookup "key" fields).getD .undefined) "task" = true
      · refine ⟨(List.lookup "value" fields).getD .undefined,
          findTaskValue_cons_obj_found fields es hk, ?_⟩
        have hrw : isIncrementEntry (.obj fields) =
            (isStrVal ((List.lookup "key" fields).getD .undefined) "task" &&
              isStrVal ((List.lookup "value" fields).getD .undefined) "increment") := rfl
        rw [hrw, hk, Bool.true_and] at hne
        simpa using hne
      · rw [findTaskValue_cons_skip (.obj fields) es
          ⟨_, rfl, by revert hk; cases isStrVal ((List.lookup "key" fields).getD .undefined) "task" <;> simp⟩]
        exact ih hses hnes
    | str s =>
      rw [findTaskValue_cons_skip (.str s) es ⟨.undefined, rfl, rfl⟩]
      exact ih hses hnes
    | num n =>
      rw [findTaskValue_cons_skip (.num n) es ⟨.undefined, rfl, rfl⟩]
      exact ih hses hnes
    | bool b =>
      rw [findTaskValue_cons_skip (.bool b) es ⟨.undefined, rfl, rfl⟩]
      exact ih hses hnes
    | arr l =>
      rw [findTaskValue_cons_skip (.arr l) es ⟨.undefined, rfl, rfl⟩]
      exact ih hses hnes

theorem findTaskValue_increment_mem :
    ∀ (entries : List JsValue) (v : JsValue),
      findTaskValue entries = .ok v → isStrVal v "increment" = true →
      ∃ e, e ∈ entries ∧ isIncrementEntry e = true := by
  intro entries
  induction entries with
  | nil =>
    intro v hv hinc
    injection hv with hv
    subst hv
    simp [isStrVal] at hinc
  | cons e es ih =>
    intro v hv hinc
    cases e with
    | null =>
      rw [show findTaskValue (JsValue.null :: es) =
        .error "TypeError: cannot read properties of null" from rfl] at hv
      cases hv
    | undefined =>
      rw [show findTaskValue (JsValue.undefined :: es) =
        .error "TypeError: cannot read properties of undefined" from rfl] at hv
      cases hv
    | obj fields =>
      by_cases hk : isStrVal ((List.lookup "key" fields).getD .undefined) "task" = true
      · rw [findTaskValue_cons_obj_found fields es hk] at hv
        injection hv with hv
        refine ⟨.obj fields, List.mem_cons_self _ _, ?_⟩
        show (isStrVal ((List.lookup "key" fields).getD .undefined) "task" &&
          isStrVal ((List.lookup "value" fields).getD .undefined) "increment") = true
        rw [hk, Bool.true_and, hv]
        exact hinc
      · rw [findTaskValue_cons_skip (.obj fields) es
          ⟨_, rfl, by revert hk; cases isStrVal ((List.lookup "key" fields).getD .undefined) "task" <;> simp⟩] at hv
        obtain ⟨e2, he2, hie2⟩ := ih v hv hinc
        exact ⟨e2, List.mem_cons_of_mem _ he2, hie2⟩
    | str s =>
      rw [findTaskValue_cons_skip (.str s) es ⟨.undefined, rfl, rfl⟩] at hv
      obtain ⟨e2, he2, hie2⟩ := ih v hv hinc
      exact ⟨e2, List.mem_cons_of_mem _ he2, hie2⟩
    | num n =>
      rw [findTaskValue_cons_skip (.num n) es ⟨.undefined, rfl, rfl⟩] at hv
      obtain ⟨e2, he2, hie2⟩ := ih v hv hinc
      exact ⟨e2, List.mem_cons_of_mem _ he2, hie2⟩
    | bool b =>
      rw [findTaskValue_cons_skip (.bool b) es ⟨.undefined, rfl, rfl⟩] at hv
      obtain ⟨e2, he2, hie2⟩ := ih v hv hinc
      exact ⟨e2, List.mem_cons_of_mem _ he2, hie2⟩
    | arr l =>
      rw [findTaskValue_cons_skip (.arr l) es ⟨.undefined, rfl, rfl⟩] at hv
      obtain ⟨e2, he2, hie2⟩ := ih v hv hinc
      exact ⟨e2, List.mem_cons_of_mem _ he2, hie2⟩

theorem getProp_arr_obj (body : JsValue) (k : String) (entries : List JsValue)
    (h : getProp body k = .ok (.arr entries)) :
    ∃ fields, body = .obj fields ∧ List.lookup k fields = some (.arr entries) := by
  cases body with
  | obj fields =>
    refine ⟨fields, rfl, ?_⟩
    injection h with h
    cases hl : List.lookup k fields with
    | none => rw [hl] at h; cases h
    | some v =>
      rw [hl] at h
      rw [show (some v).getD JsValue.undefined = v from rfl] at h
      rw [h]
  | null => cases h
  | undefined => cases h
  | str s => injection h with h; cases h
  | num n => injection h with h; cases h
  | bool b => injection h with h; cases h
  | arr l => injection h with h; cases h

theorem startJobSync_accepted_increment
    {body : JsValue} {registry : List (String × Job)} {now : Nat}
    {jobId paymentId inputHash : String} {resp : StartJobResponse}
    {reg2 : List (String × Job)}
    (h : startJobSync body registry now jobId paymentId inputHash = .accepted resp reg2) :
    ∃ entries task, getProp body "input_data" = .ok (.arr entries) ∧
      findTaskValue entries = .ok task ∧ isStrVal task "increment" = true := by
  unfold startJobSync at h
  cases hp : getProp body "input_data" with
  | error m => rw [hp] at h; cases h
  | ok inputData =>
    rw [hp] at h
    cases inputData with
    | arr entries =>
      dsimp only at h
      cases hf : findTaskValue entries with
      | error m => rw [hf] at h; cases h
      | ok task =>
        rw [hf] at h
        dsimp only at h
        by_cases ht : isStrVal task "increment" = true
        · exact ⟨entries, task, rfl, hf, ht⟩
        · rw [if_neg ht] at h; cases h
    | null => cases h
    | undefined => cases h
    | str s => cases h
    | num n => cases h
    | bool b => cases h
    | obj f2 => cases h

/-- C6 counterexample: the body { input_data: [null] } contains no entry with
key "task" and value "increment", yet the handler does not answer 400: the
find callback reads .key of the null entry and throws a TypeError before any
response is produced (no job is created and no collaborator invoked either
way, as the untouched registry in the thrown result shows). -/
theorem invalid_null_entry_throws_cex :
    claimNoIncrement (JsValue.obj [("input_data", .arr [.null])]) = true ∧
    isObjOrArr (JsValue.obj [("input_data", .arr [.null])]) = true ∧
    startJobSync (JsValue.obj [("input_data", .arr [.null])]) [] 0 "j" "p" "h" =
      .thrown "TypeError: cannot read properties of null" [] :=
  ⟨by decide, by decide, by decide⟩

/-- C6 (amended): a /start_job body (an object or array, as express.json
produces) whose input_data is missing, not an array, or contains no entry
with key "task" and value "increment" receives a 400 response with an error
field and leaves the registry untouched, provided no input_data entry is null
or undefined (a nullish entry makes the find callback throw a TypeError
instead of answering 400); in every such case the request is never accepted,
so no job is created and no external collaborator is invoked. -/
theorem invalid_request_rejected
    (body : JsValue) (registry : List (String × Job)) (now : Nat)
    (jobId paymentId inputHash : String)
    (hinv : claimNoIncrement body = true) :
    (isObjOrArr body = true → safeEntries body = true →
      ∃ msg, startJobSync body registry now jobId paymentId inputHash =
        .badRequest msg registry) ∧
    (∀ resp reg2,
      startJobSync body registry now jobId paymentId inputHash ≠ .accepted resp reg2) := by
  constructor
  · intro hoa hsafe
    cases body with
    | arr l => exact ⟨"input_data must be an array", rfl⟩
    | obj fields =>
      cases hl : List.lookup "input_data" fields with
      | none =>
        refine ⟨"input_data must be an array", ?_⟩
        unfold startJobSync
        rw [show getProp (.obj fields) "input_data" =
          .ok ((List.lookup "input_data" fields).getD .undefined) from rfl, hl]
        rfl
      | some v =>
        cases v with
        | arr entries =>
          have hsafe2 : entries.all (fun e => !(isNullish e)) = true := by
            unfold safeEntries at hsafe
            dsimp only at hsafe
            rw [hl] at hsafe
            dsimp only at hsafe
            exact hsafe
          have hninc : entries.all (fun e => !(isIncrementEntry e)) = true := by
            unfold claimNoIncrement at hinv
            dsimp only at hinv
            rw [hl] at hinv
            dsimp only at hinv
            exact hinv
          obtain ⟨tv, htv, hfalse⟩ := findTaskValue_no_increment entries hsafe2 hninc
          refine ⟨"Unsupported task", ?_⟩
          unfold startJobSync
          rw [show getProp (.obj fields) "input_data" =
            .ok ((List.lookup "input_data" fields).getD .undefined) from rfl, hl]
          dsimp only [Option.getD]
          rw [htv]
          dsimp only
          rw [if_neg (by simp [hfalse])]
        | null =>
          refine ⟨"input_data must be an array", ?_⟩
          unfold startJobSync
          rw [show getProp (.obj fields) "input_data" =
            .ok ((List.lookup "input_data" fields).getD .undefined) from rfl, hl]
          rfl
        | undefined =>
          refine ⟨"input_data must be an array", ?_⟩
          unfold startJobSync
          rw [show getProp (.obj fields) "input_data" =
            .ok ((List.lookup "input_data" fields).getD .undefined) from rfl, hl]
          rfl
        | str s =>
          refine ⟨"input_data must be an array", ?_⟩
          unfold startJobSync
          rw [show getProp (.obj fields) "input_data" =
            .ok ((List.lookup "input_data" fields).getD .undefined) from rfl, hl]
          rfl
        | num n =>
          refine ⟨"input_data must be an array", ?_⟩
          unfold startJobSync
          rw [show getProp (.obj fields) "input_data" =
            .ok ((List.lookup "input_data" fields).getD .undefined) from rfl, hl]
          rfl
        | bool b =>
          refine ⟨"input_data must be an array", ?_⟩
          unfold startJobSync
          rw [show getProp (.obj fields) "input_data" =
            .ok ((List.lookup "input_data" fields).getD .undefined) from rfl, hl]
          rfl
        | obj f2 =>
          refine ⟨"input_data must be an array", ?_⟩
          unfold startJobSync
          rw [show getProp (.obj fields) "input_data" =
            .ok ((List.lookup "input_data" fields).getD .undefined) from rfl, hl]
          rfl
    | null => simp [isObjOrArr] at hoa
    | undefined => simp [isObjOrArr] at hoa
    | str s => simp [isObjOrArr] at hoa
    | num n => simp [isObjOrArr] at hoa
    | bool b => simp [isObjOrArr] at hoa
  · intro resp reg2 hacc
    obtain ⟨entries, task, hp, hf, ht⟩ := startJobSync_accepted_increment hacc
    obtain ⟨fields, hb, hl⟩ := getProp_arr_obj body "input_data" entries hp
    subst hb
    have hninc : entries.all (fun e => !(isIncrementEntry e)) = true := by
      unfold claimNoIncrement at hinv
      dsimp only at hinv
      rw [hl] at hinv
      dsimp only at hinv
      exact hinv
    obtain ⟨e, hmem, hie⟩ := findTaskValue_increment_mem entries task hf ht
    have hc := List.all_eq_true.mp hninc e hmem
    rw [hie] at hc
    simp at hc

theorem invalid_request_rejected_witness :
    (claimNoIncrement
      (JsValue.obj [("input_data",
        .arr [.obj [("key", .str "task"), ("value", .str "transfer")]])]) = true) ∧
    ((isObjOrArr
        (JsValue.obj [("input_data",
          .arr [.obj [("key", .str "task"), ("value", .str "transfer")]])]) = true →
      safeEntries
        (JsValue.obj [("input_data",
          .arr [.obj [("key", .str "task"), ("value", .str "transfer")]])]) = true →
      ∃ msg, startJobSync
        (JsValue.obj [("input_data",
          .arr [.obj [("key", .str "task"), ("value", .str "transfer")]])])
        [] 0 "j" "p" "h" = .badRequest msg []) ∧
     (∀ resp reg2, startJobSync
        (JsValue.obj [("input_data",
          .arr [.obj [("key", .str "task"), ("value", .str "transfer")]])])
        [] 0 "j" "p" "h" ≠ .accepted resp reg2)) :=
  ⟨by decide,
   invalid_request_rejected
     (JsValue.obj [("input_data",
       .arr [.obj [("key", .str "task"), ("value", .str "transfer")]])])
     [] 0 "j" "p" "h" (by decide)⟩

/-- C8 counterexample: the schedule in which a second SIGINT is delivered
while the first handler invocation awaits wallet.close().  It is a legal
event-loop interleaving of two handler invocations, and it calls
wallet.close() twice: the release is not idempotent, a second termination
signal before process.exit releases the resource a second time. -/
theorem sigint_double_release_cex :
    Interleaving sigintHandlerSegs sigintHandlerSegs
      [SigSeg.part1, SigSeg.part1, SigSeg.part2, SigSeg.part2] ∧
    runSchedule startupState [SigSeg.part1, SigSeg.part1, SigSeg.part2, SigSeg.part2] =
      { intervalActive := false, walletCloseCalls := 2, exitCode := some 0 } ∧
    (runSchedule startupState
      [SigSeg.part1, SigSeg.part1, SigSeg.part2, SigSeg.part2]).walletCloseCalls = 2 :=
  ⟨Interleaving.left (.right (.left (.right .nil))), by decide, by decide⟩

/-- C8 (amended): a termination signal makes the handler stop the
LedgerObserver interval timer, release the wallet once and exit with code 0,
and once the process has exited no further handler segment has any effect;
but the release itself is not guarded for idempotence: a second signal
arriving while the first handler awaits wallet.close() releases the wallet a
second time (see the counterexample). -/
theorem sigint_shutdown_behavior :
    runSchedule startupState sigintHandlerSegs =
      { intervalActive := false, walletCloseCalls := 1, exitCode := some 0 } ∧
    ∀ (s : ProcState) (segs : List SigSeg), s.exitCode.isSome = true →
      runSchedule s segs = s := by
  constructor
  · decide
  · intro s segs h
    induction segs with
    | nil => rfl
    | cons seg segs ih =>
      unfold runSchedule
      rw [List.foldl_cons]
      have hs : runSeg s seg = s := by unfold runSeg; rw [if_pos h]
      rw [hs]
      exact ih

theorem sigint_shutdown_behavior_witness :
    ((⟨false, 1, some 0⟩ : ProcState).exitCode.isSome = true) ∧
    runSchedule ⟨false, 1, some 0⟩ [SigSeg.part1] = ⟨false, 1, some 0⟩ :=
  ⟨by decide, sigint_shutdown_behavior.2 ⟨false, 1, some 0⟩ [SigSeg.part1] (by decide)⟩

set_option maxHeartbeats 1600000 in
theorem ASCII_NUMBERS_shape (c : Char) (rows : List String)
    (h : ASCII_NUMBERS c = some rows) :
    ∃ r0 r1 r2 r3 r4 r5, rows = [r0, r1, r2, r3, r4, r5] := by
  unfold ASCII_NUMBERS at h
  split_ifs at h <;>
    first
      | (injection h with h; exact ⟨_, _, _, _, _, _, h.symm⟩)
      | cases h

set_option maxHeartbeats 1600000 in
theorem ASCII_NUMBERS_dims (c : Char) (rows : List String)
    (h : ASCII_NUMBERS c = some rows) :
    rows.length = 6 ∧ ∀ r ∈ rows, r.length = 8 := by
  unfold ASCII_NUMBERS at h
  split_ifs at h <;>
    first
      | (injection h with h; subst h; decide)
      | cases h

theorem asciiBuild_cons (total idx : Nat) (ch : Char) (cs : List Char)
    (lines : List String) :
    asciiBuild total idx (ch :: cs) lines =
      match ASCII_NUMBERS ch with
      | none => asciiBuild total (idx + 1) cs lines
      | some rows =>
        asciiBuild total (idx + 1) cs
          ((lines.zip rows).map
            (fun p => p.1 ++ p.2 ++ (if idx < total - 1 then "  " else ""))) := rfl

theorem contribLine_cons (total idx : Nat) (ch : Char) (cs : List Char) (j : Nat) :
    contribLine total idx (ch :: cs) j =
      (match ASCII_NUMBERS ch with
       | none => ""
       | some rows => rows.getD j "" ++ asciiSep total idx) ++
        contribLine total (idx + 1) cs j := rfl

theorem sepOk_cons (c : Char) (cs : List Char) :
    sepOk (c :: cs) =
      ((!(recognizedDigit c) || cs.isEmpty || !((cs.filter recognizedDigit).isEmpty)) &&
        sepOk cs) := rfl

theorem asciiBuild_eq (total : Nat) :
    ∀ (cs : List Char) (idx : Nat) (a b c d e f : String),
      asciiBuild total idx cs [a, b, c, d, e, f] =
        [a ++ contribLine total idx cs 0, b ++ contribLine total idx cs 1,
         c ++ contribLine total idx cs 2, d ++ contribLine total idx cs 3,
         e ++ contribLine total idx cs 4, f ++ contribLine total idx cs 5] := by
  intro cs
  induction cs with
  | nil =>
    intro idx a b c d e f
    show [a, b, c, d, e, f] = _
    simp [contribLine, String.append_empty]
  | cons ch cs ih =>
    intro idx a b c d e f
    cases hA : ASCII_NUMBERS ch with
    | none =>
      rw [asciiBuild_cons, hA]
      dsimp only
      rw [ih (idx + 1) a b c d e f]
      simp only [contribLine_cons, hA, String.empty_append]
    | some rows =>
      obtain ⟨r0, r1, r2, r3, r4, r5, hr⟩ := ASCII_NUMBERS_shape ch rows hA
      subst hr
      rw [asciiBuild_cons, hA]
      dsimp only
      simp only [List.zip, List.zipWith, List.map]
      rw [ih (idx + 1)]
      simp only [contribLine_cons, hA]
      simp [asciiSep, String.append_assoc]

theorem joinSep_cons_of_ne_nil (sep : String) (x : String) (xs : List String)
    (h : xs ≠ []) : joinSep sep (x :: xs) = x ++ sep ++ joinSep sep xs := by
  cases xs with
  | nil => exact absurd rfl h
  | cons y ys => rfl

theorem contribLine_eq_spec :
    ∀ (cs : List Char) (idx total : Nat), idx + cs.length = total → sepOk cs = true →
      ∀ j, contribLine total idx cs j =
        joinSep "  " ((cs.filter recognizedDigit).map (fun c => digitRow c j)) := by
  intro cs
  induction cs with
  | nil => intro idx total _ _ j; rfl
  | cons ch cs ih =>
    intro idx total hlen hsep j
    rw [sepOk_cons, Bool.and_eq_true] at hsep
    obtain ⟨hhead, htail⟩ := hsep
    have hlen2 : (idx + 1) + cs.length = total := by
      rw [List.length_cons] at hlen
      omega
    cases hA : ASCII_NUMBERS ch with
    | none =>
      have hrec : recognizedDigit ch = false := by
        unfold recognizedDigit
        rw [hA]
        rfl
      rw [contribLine_cons, hA]
      dsimp only
      rw [String.empty_append, ih (idx + 1) total hlen2 htail j]
      rw [List.filter_cons, hrec]
      rfl
    | some rows =>
      have hrec : recognizedDigit ch = true := by
        unfold recognizedDigit
        rw [hA]
        rfl
      rw [contribLine_cons, hA]
      dsimp only
      rw [List.filter_cons, hrec]
      rw [if_pos rfl]
      cases cs with
      | nil =>
        have hsep0 : asciiSep total idx = "" := by
          unfold asciiSep
          rw [List.length_cons, List.length_nil] at hlen
          rw [if_neg (by omega)]
        rw [hsep0, String.append_empty,
          show contribLine total (idx + 1) [] j = "" from rfl, String.append_empty]
        simp [joinSep, digitRow, hA]
      | cons ch2 cs2 =>
        have hne : List.filter recognizedDigit (ch2 :: cs2) ≠ [] := by
          rw [hrec] at hhead
          simp only [Bool.not_true, Bool.false_or, List.isEmpty_cons, Bool.false_or] at hhead
          intro hfe
          rw [hfe] at hhead
          simp at hhead
        have hsep2 : asciiSep total idx = "  " := by
          unfold asciiSep
          simp only [List.length_cons] at hlen
          rw [if_pos (by omega)]
        rw [hsep2, ih (idx + 1) total hlen2 htail j]
        rw [List.map_cons]
        rw [joinSep_cons_of_ne_nil "  " (digitRow ch j)
          ((List.filter recognizedDigit (ch2 :: cs2)).map (fun c => digitRow c j))
          (by
            intro hmap
            exact hne (List.map_eq_nil.mp hmap))]
        simp [digitRow, hA, String.append_assoc]

/-- C10: for every number input whose decimal rendering satisfies the
reachable-input condition sepOk (true of every JS Number toString output:
finite numbers end in a decimal digit and NaN or the infinities contain
none), numberToAscii produces exactly the six newline-separated lines of
specNumberToAscii, where line j is the concatenation of row j of each
recognized decimal digit with two spaces appended after every digit except
the last, digits without an ASCII_NUMBERS entry contributing nothing; and
every ASCII_NUMBERS entry consists of six 8-character rows. -/
theorem number_to_ascii_layout (s : String) (hsep : sepOk s.data = true) :
    numberToAscii s = specNumberToAscii s ∧
    ∀ c rows, ASCII_NUMBERS c = some rows →
      rows.length = 6 ∧ ∀ r ∈ rows, r.length = 8 := by
  refine ⟨?_, fun c rows h => ASCII_NUMBERS_dims c rows h⟩
  unfold numberToAscii specNumberToAscii
  rw [show (List.range 6) = [0, 1, 2, 3, 4, 5] from by decide]
  rw [show (["", "", "", "", "", ""] : List String) = ["", "", "", "", "", ""] from rfl]
  rw [asciiBuild_eq s.data.length s.data 0 "" "" "" "" "" ""]
  simp only [String.empty_append, List.map]
  rw [contribLine_eq_spec s.data 0 s.data.length (by omega) hsep 0,
    contribLine_eq_spec s.data 0 s.data.length (by omega) hsep 1,
    contribLine_eq_spec s.data 0 s.data.length (by omega) hsep 2,
    contribLine_eq_spec s.data 0 s.data.length (by omega) hsep 3,
    contribLine_eq_spec s.data 0 s.data.length (by omega) hsep 4,
    contribLine_eq_spec s.data 0 s.data.length (by omega) hsep 5]
  rfl

theorem number_to_ascii_layout_witness :
    (sepOk ("3.14" : String).data = true) ∧
    (numberToAscii "3.14" = specNumberToAscii "3.14" ∧
      ∀ c rows, ASCII_NUMBERS c = some rows →
        rows.length = 6 ∧ ∀ r ∈ rows, r.length = 8) :=
  ⟨by decide, number_to_ascii_layout "3.14" (by decide)⟩
